import Mathlib

/-!
Verification of the request-path resolution and safety-validation pipeline of
the `nsv` file server (`src/main.rs`).

The embedding models:
* bytes as `Nat` (values < 256), strings as `List Char`;
* UTF-8 encoding, strict decoding (`str::from_utf8` / `OsStr::to_str`) and
  lossy decoding (`String::from_utf8_lossy`, maximal-subpart substitution);
* percent-decoding as performed by the `percent_encoding` crate
  (`percent_decode_str`): a `%` followed by two hex digits becomes one byte,
  anything else is passed through unchanged;
* filesystem paths as Rust component lists (`PComp`), the filesystem itself
  as an abstract record of the four operations the program performs
  (`canonicalize`, `is_dir`, `metadata`, `open`), and the handler as a
  function that also returns the trace of filesystem operations it performed,
  so that "no filesystem access" claims are statements about the trace;
* HTTP responses as status / headers / body records.  Header construction by
  the external HTTP library (`tiny_http::Header::from_bytes`) is modelled as
  total, matching the wire contract of the specification; the library is an
  external collaborator, not part of this repository.
-/

namespace Nsv

/-- One Unicode replacement character, U+FFFD. -/
def replacementChar : Char := Char.ofNat 0xFFFD

/-- The NUL character, U+0000. -/
def nulChar : Char := Char.ofNat 0

/-- Is `b` a UTF-8 continuation byte (`0x80 ≤ b ≤ 0xBF`)? -/
def contByte (b : Nat) : Bool := 0x80 ≤ b && b ≤ 0xBF

/-- Allowed second byte of a three-byte sequence with lead byte `b`
(`0xE0 ≤ b ≤ 0xEF`): `0xE0` requires `0xA0..0xBF`, `0xED` requires
`0x80..0x9F` (excluding surrogates), the rest any continuation byte. -/
def snd3ok (b b1 : Nat) : Bool :=
  if b = 0xE0 then 0xA0 ≤ b1 && b1 ≤ 0xBF
  else if b = 0xED then 0x80 ≤ b1 && b1 ≤ 0x9F
  else contByte b1

/-- Allowed second byte of a four-byte sequence with lead byte `b`
(`0xF0 ≤ b ≤ 0xF4`): `0xF0` requires `0x90..0xBF`, `0xF4` requires
`0x80..0x8F` (staying below U+110000), the rest any continuation byte. -/
def snd4ok (b b1 : Nat) : Bool :=
  if b = 0xF0 then 0x90 ≤ b1 && b1 ≤ 0xBF
  else if b = 0xF4 then 0x80 ≤ b1 && b1 ≤ 0x8F
  else contByte b1

/-- Split a byte list into decoded scalar values and ill-formed maximal
subparts: each list element is `some c` for a well-formed UTF-8 sequence
decoding to `c`, or `none` for one maximal subpart of an ill-formed sequence
(the longest prefix of a valid sequence, at least one byte), following the
substitution-of-maximal-subparts policy used by Rust's
`String::from_utf8_lossy`. -/
def utf8Pieces : List Nat → List (Option Char)
  | [] => []
  | b :: rest =>
    if b < 0x80 then some (Char.ofNat b) :: utf8Pieces rest
    else if b < 0xC2 then none :: utf8Pieces rest
    else if b < 0xE0 then
      match rest with
      | [] => [none]
      | b1 :: rest1 =>
        if contByte b1 then
          some (Char.ofNat ((b - 0xC0) * 64 + (b1 - 0x80))) :: utf8Pieces rest1
        else none :: utf8Pieces (b1 :: rest1)
    else if b < 0xF0 then
      match rest with
      | [] => [none]
      | b1 :: rest1 =>
        if snd3ok b b1 then
          match rest1 with
          | [] => [none]
          | b2 :: rest2 =>
            if contByte b2 then
              some (Char.ofNat ((b - 0xE0) * 4096 + (b1 - 0x80) * 64 + (b2 - 0x80))) ::
                utf8Pieces rest2
            else none :: utf8Pieces (b2 :: rest2)
        else none :: utf8Pieces (b1 :: rest1)
    else if b < 0xF5 then
      match rest with
      | [] => [none]
      | b1 :: rest1 =>
        if snd4ok b b1 then
          match rest1 with
          | [] => [none]
          | b2 :: rest2 =>
            if contByte b2 then
              match rest2 with
              | [] => [none]
              | b3 :: rest3 =>
                if contByte b3 then
                  some (Char.ofNat ((b - 0xF0) * 262144 + (b1 - 0x80) * 4096 +
                    (b2 - 0x80) * 64 + (b3 - 0x80))) :: utf8Pieces rest3
                else none :: utf8Pieces (b3 :: rest3)
            else none :: utf8Pieces (b2 :: rest2)
        else none :: utf8Pieces (b1 :: rest1)
    else none :: utf8Pieces rest

/-- Lossy UTF-8 decoding (`String::from_utf8_lossy` /
`percent_encoding`'s `decode_utf8_lossy`): each ill-formed maximal subpart
becomes one U+FFFD replacement character. -/
def utf8Lossy (bs : List Nat) : List Char :=
  (utf8Pieces bs).map (fun o => o.getD replacementChar)

/-- Collect a list of optional characters, failing if any element failed. -/
def collectPieces : List (Option Char) → Option (List Char)
  | [] => some []
  | none :: _ => none
  | some c :: t => (collectPieces t).map (c :: ·)

/-- Strict UTF-8 decoding (`str::from_utf8` / `OsStr::to_str`): fails on any
ill-formed sequence. -/
def utf8DecodeStrict (bs : List Nat) : Option (List Char) :=
  collectPieces (utf8Pieces bs)

/-- UTF-8 encoding of one Unicode scalar value. -/
def encodeChar (c : Char) : List Nat :=
  let n := c.toNat
  if n < 0x80 then [n]
  else if n < 0x800 then [0xC0 + n / 64, 0x80 + n % 64]
  else if n < 0x10000 then
    [0xE0 + n / 4096, 0x80 + (n / 64) % 64, 0x80 + n % 64]
  else
    [0xF0 + n / 262144, 0x80 + (n / 4096) % 64, 0x80 + (n / 64) % 64, 0x80 + n % 64]

/-- UTF-8 encoding of a string (`str::as_bytes`). -/
def utf8Encode (s : List Char) : List Nat := (s.map encodeChar).flatten

/-- Is `b` the byte of an ASCII hex digit?  If so, its value.  Mirrors the
hex-digit test of the `percent_encoding` crate. -/
def hexVal (b : Nat) : Option Nat :=
  if 48 ≤ b && b ≤ 57 then some (b - 48)
  else if 65 ≤ b && b ≤ 70 then some (b - 55)
  else if 97 ≤ b && b ≤ 102 then some (b - 87)
  else none

/-- Percent-decoding on bytes (`percent_encoding::percent_decode_str`): a
`%` (byte 37) followed by two ASCII hex digits is replaced by the denoted
byte; a `%` not followed by two hex digits is passed through literally and
the following bytes are re-examined from scratch. -/
def percentDecode : List Nat → List Nat
  | 37 :: h :: l :: rest =>
    match hexVal h, hexVal l with
    | some hv, some lv => (hv * 16 + lv) :: percentDecode rest
    | _, _ => 37 :: percentDecode (h :: l :: rest)
  | b :: rest => b :: percentDecode rest
  | [] => []

/-- `decode_path` from `src/main.rs`: if the input contains no `%`, return it
unchanged; otherwise percent-decode its UTF-8 bytes and decode the result
lossily back to a string. -/
def decode_path (input : List Char) : List Char :=
  if '%' ∈ input then utf8Lossy (percentDecode (utf8Encode input))
  else input

/-- One component of a Rust filesystem path (`std::path::Component`): the
root marker, or a file/directory name given as raw OS-string bytes (a Unix
filename need not be valid UTF-8). -/
inductive PComp where
  | root
  | comp (bytes : List Nat)
  deriving DecidableEq, Repr

/-- A filesystem path as its Rust component list; `[]` is the empty path,
`[PComp.root]` is `/`. -/
abbrev RPath := List PComp

/-- Rust `Path::parent`: drop the last component; `None` for the empty path
and for the bare root. -/
def pathParent (p : RPath) : Option RPath :=
  match p with
  | [] => none
  | [PComp.root] => none
  | _ => some p.dropLast

/-- Rust `Path::file_name`: the last component when it is a normal name. -/
def fileName (p : RPath) : Option (List Nat) :=
  match p.getLast? with
  | some (PComp.comp bs) => some bs
  | _ => none

/-- Split a character list at every `/`. -/
def splitSlash : List Char → List (List Char)
  | [] => [[]]
  | '/' :: t => [] :: splitSlash t
  | c :: t =>
    match splitSlash t with
    | [] => [[c]]
    | h :: r => (c :: h) :: r

/-- Components of a relative path string: the non-empty segments between
slashes, with names carried as their UTF-8 bytes. -/
def relComps (rel : List Char) : List PComp :=
  ((splitSlash rel).filter (fun seg => !seg.isEmpty)).map
    (fun seg => PComp.comp (utf8Encode seg))

/-- Rust `PathBuf::join` of a base path and a path string: an absolute
argument (leading `/`) replaces the base, otherwise the argument's
components are appended.  The result is consumed only by the abstract
`canonicalize`. -/
def pathJoin (base : RPath) (rel : List Char) : RPath :=
  if rel.head? = some '/' then PComp.root :: relComps rel
  else base ++ relComps rel

/-- Rust `OsStr::to_str`: succeeds exactly on valid UTF-8. -/
def osToStr (bs : List Nat) : Option String :=
  (utf8DecodeStrict bs).map (fun cs => String.mk cs)

/-- Abstract filesystem: the four operations `handle_request` performs.
`canonicalize` resolves symlinks and `..`/`.` segments (and fails when the
path does not exist or is otherwise unresolvable), `isDir` is the
`is_dir` stat, `metadata` yields a file's byte size, `openFile` its
contents. -/
structure FS where
  canonicalize : RPath → Option RPath
  isDir : RPath → Bool
  metadata : RPath → Option Nat
  openFile : RPath → Option (List Nat)

/-- A filesystem operation actually performed by the handler, recorded in
order; claims such as "rejected before any filesystem access" are statements
about this trace. -/
inductive FsOp where
  | canonQ (cand : RPath)
  | isDirQ (p : RPath)
  | metadataQ (p : RPath)
  | openQ (p : RPath)
  deriving DecidableEq, Repr

/-- An HTTP method (`tiny_http::Method`). -/
inductive Method where
  | get
  | head
  | post
  | put
  | delete
  | options
  | patch
  | other (s : String)
  deriving DecidableEq, Repr

/-- An inbound request: method and raw URL string. -/
structure Request where
  method : Method
  url : List Char

/-- An HTTP response: status code, headers in the order added, body bytes. -/
structure HttpResponse where
  status : Nat
  headers : List (String × String)
  body : List Nat
  deriving DecidableEq, Repr

/-- `Response::empty(code)`: a status with no headers and no body. -/
def emptyResp (code : Nat) : HttpResponse := ⟨code, [], []⟩

/-- Look up the first header with the given field name. -/
def getHeader (r : HttpResponse) (name : String) : Option String :=
  (r.headers.find? (fun h => h.1 == name)).map (fun h => h.2)

/-- Filename used in the `Content-Disposition` header: the resolved path's
final component when present and valid UTF-8, the literal `download`
otherwise (`candidate.file_name().and_then(|s| s.to_str()).unwrap_or("download")`). -/
def fileNameOr (p : RPath) : String :=
  ((fileName p).bind osToStr).getD "download"

/-- The `Content-Disposition` value built by `handle_request`. -/
def dispositionFor (p : RPath) : String :=
  "attachment; filename=\"" ++ fileNameOr p ++ "\""

/-- Everything `handle_request` does after the method gate, as a function of
the query-stripped path: shape checks, decoding, NUL check, join,
canonicalization, sandbox prefix check, directory check, and the HEAD/GET
response construction.  Returns the response and the trace of filesystem
operations performed. -/
def respond_for_path (fs : FS) (base_dir : RPath) (method : Method)
    (path : List Char) : HttpResponse × List FsOp :=
  if path = ['/'] ∨ path.getLast? = some '/' then (emptyResp 403, [])
  else
    let rel := path.dropWhile (fun c => c == '/')
    if rel = [] then (emptyResp 403, [])
    else
      let dec := decode_path rel
      if nulChar ∈ dec then (emptyResp 400, [])
      else
        let cand := pathJoin base_dir dec
        match fs.canonicalize cand with
        | none => (emptyResp 404, [FsOp.canonQ cand])
        | some candidate =>
          if ¬ List.isPrefixOf base_dir candidate then
            (emptyResp 403, [FsOp.canonQ cand])
          else if fs.isDir candidate then
            (emptyResp 403, [FsOp.canonQ cand, FsOp.isDirQ candidate])
          else
            let disposition := dispositionFor candidate
            if method = Method.head then
              match fs.metadata candidate with
              | none =>
                (emptyResp 404,
                 [FsOp.canonQ cand, FsOp.isDirQ candidate, FsOp.metadataQ candidate])
              | some len =>
                (⟨200, [("Content-Disposition", disposition),
                        ("Content-Length", toString len)], []⟩,
                 [FsOp.canonQ cand, FsOp.isDirQ candidate, FsOp.metadataQ candidate])
            else
              match fs.openFile candidate with
              | none =>
                (emptyResp 404,
                 [FsOp.canonQ cand, FsOp.isDirQ candidate, FsOp.openQ candidate])
              | some contents =>
                (⟨200, [("Content-Disposition", disposition)], contents⟩,
                 [FsOp.canonQ cand, FsOp.isDirQ candidate, FsOp.openQ candidate])

/-- Rust `url.split('?').next().unwrap_or(url)`: the URL up to the first
`?`. -/
def stripQuery (url : List Char) : List Char :=
  url.takeWhile (fun c => c != '?')

/-- `handle_request` from `src/main.rs`: method gate first (anything other
than GET/HEAD is 405 with no body and no filesystem access), then the path
pipeline on the query-stripped URL. -/
def handle_request (fs : FS) (base_dir : RPath) (req : Request) :
    HttpResponse × List FsOp :=
  if req.method ≠ Method.get ∧ req.method ≠ Method.head then (emptyResp 405, [])
  else respond_for_path fs base_dir req.method (stripQuery req.url)

/-- Environment variables the program consults, each parsed as a path value
(`PathBuf::from` of the variable's string) when the variable is set. -/
structure Env where
  home : Option RPath
  userprofile : Option RPath

/-- `home_dir` from `src/main.rs`: the `HOME` value, falling back to
`USERPROFILE`. -/
def home_dir (env : Env) : Option RPath :=
  match env.home with
  | some h => some h
  | none =>
    match env.userprofile with
    | some h => some h
    | none => none

/-- `is_dangerous_dir` from `src/main.rs`: a path with no parent (the
filesystem root), or one equal to the resolved home directory. -/
def is_dangerous_dir (env : Env) (path : RPath) : Bool :=
  if pathParent path = none then true
  else
    match home_dir env with
    | some home => if path = home then true else false
    | none => false

/-- Outcome of the startup danger-zone check: refuse (warning naming the
directory, process exit with the given code) or proceed to serve. -/
inductive Startup where
  | refuse (warnedDir : RPath) (exitCode : Nat)
  | serve
  deriving DecidableEq, Repr

/-- The danger-zone gate in `main` (`src/main.rs` lines 41–48): without
`--force`, a dangerous canonicalized base directory is refused with a
warning naming it and exit code 1; otherwise the server starts. -/
def startupGuard (force : Bool) (env : Env) (base_dir : RPath) : Startup :=
  if force = false ∧ is_dangerous_dir env base_dir then Startup.refuse base_dir 1
  else Startup.serve

/-! Concrete fixtures: a base directory `/b`, a regular file `/b/f`, a path
`/e` outside the base, a file `/b/<0xFF>` whose name is not valid UTF-8, and
filesystems exhibiting the different outcomes of the four operations.  They
instantiate the theorems below on closed inputs. -/

/-- The path `/b`. -/
def baseB : RPath := [PComp.root, PComp.comp [98]]

/-- The path `/b/f`. -/
def fileF : RPath := [PComp.root, PComp.comp [98], PComp.comp [102]]

/-- The path `/e`, outside `/b`. -/
def outsideE : RPath := [PComp.root, PComp.comp [101]]

/-- The path `/b/<0xFF>`: its final component is not valid UTF-8. -/
def badNameP : RPath := [PComp.root, PComp.comp [98], PComp.comp [255]]

/-- A filesystem on which every candidate resolves to the regular file
`/b/f` of size 3 with contents `[10, 20, 30]`. -/
def fsFile : FS :=
  ⟨fun _ => some fileF, fun _ => false, fun _ => some 3, fun _ => some [10, 20, 30]⟩

/-- A filesystem on which canonicalization always fails. -/
def fsMissing : FS := ⟨fun _ => none, fun _ => false, fun _ => none, fun _ => none⟩

/-- A filesystem on which every candidate resolves outside the base, to
`/e`. -/
def fsEscape : FS :=
  ⟨fun _ => some outsideE, fun _ => false, fun _ => some 1, fun _ => some [7]⟩

/-- A filesystem on which every candidate resolves to the directory
`/b/f`. -/
def fsDirectory : FS :=
  ⟨fun _ => some fileF, fun _ => true, fun _ => some 3, fun _ => some [1]⟩

/-- A filesystem on which every candidate resolves to `/b/<0xFF>`, a file
whose name is not valid UTF-8. -/
def fsBadName : FS :=
  ⟨fun _ => some badNameP, fun _ => false, fun _ => some 2, fun _ => some [5, 6]⟩

/-- A filesystem on which every candidate resolves to `/b/f` but metadata
and open both fail. -/
def fsNoMeta : FS := ⟨fun _ => some fileF, fun _ => false, fun _ => none, fun _ => none⟩

/-! Theorems. -/

/-- C6: any request whose method is neither GET nor HEAD receives a 405
response with no headers and no body, on any URL and over any filesystem,
and the trace of filesystem operations is empty — the method gate precedes
every path check and no filesystem operation is performed. -/
theorem method_gate_rejects_other_methods (fs : FS) (base_dir : RPath)
    (req : Request) (hg : req.method ≠ Method.get) (hh : req.method ≠ Method.head) :
    handle_request fs base_dir req = (emptyResp 405, []) := by
  simp [handle_request, hg, hh]

/-- Witness for C6: a POST request for an existing file is answered 405 with
no filesystem access. -/
theorem method_gate_rejects_other_methods_witness :
    handle_request fsFile baseB ⟨Method.post, ['/', 'f']⟩ = (emptyResp 405, []) :=
  method_gate_rejects_other_methods fsFile baseB ⟨Method.post, ['/', 'f']⟩
    (by decide) (by decide)

/-- C10: the handler only ever reads the URL through `stripQuery`, which
drops everything at and after the first `?`; two requests with the same
method whose URLs agree before the first `?` receive identical responses and
identical filesystem traces, over every filesystem and base directory. -/
theorem query_string_never_affects_outcome (fs : FS) (base_dir : RPath)
    (m : Method) (u1 u2 : List Char) (h : stripQuery u1 = stripQuery u2) :
    handle_request fs base_dir ⟨m, u1⟩ = handle_request fs base_dir ⟨m, u2⟩ := by
  simp only [handle_request]
  rw [h]

/-- Witness for C10: `/f?x=1` and `/f?y=2` receive the same outcome. -/
theorem query_string_never_affects_outcome_witness :
    handle_request fsFile baseB ⟨Method.get, ['/', 'f', '?', 'x', '=', '1']⟩ =
      handle_request fsFile baseB ⟨Method.get, ['/', 'f', '?', 'y', '=', '2']⟩ :=
  query_string_never_affects_outcome fsFile baseB Method.get
    ['/', 'f', '?', 'x', '=', '1'] ['/', 'f', '?', 'y', '=', '2'] (by decide)

/-- C3: a GET or HEAD request that passes the raw-path shape checks and
whose decoded relative path contains a NUL character is answered 400 with no
headers and no body, and the filesystem trace is empty — no
join-canonicalize, stat, or open is performed. -/
theorem nul_rejected_before_filesystem (fs : FS) (base_dir : RPath)
    (m : Method) (url : List Char) (rel : List Char)
    (hm : m = Method.get ∨ m = Method.head)
    (hshape : ¬ (stripQuery url = ['/'] ∨ (stripQuery url).getLast? = some '/'))
    (hrel : rel = (stripQuery url).dropWhile (fun c => c == '/'))
    (hne : rel ≠ [])
    (hnul : nulChar ∈ decode_path rel) :
    handle_request fs base_dir ⟨m, url⟩ = (emptyResp 400, []) := by
  subst hrel
  rcases hm with hm | hm <;> subst hm <;>
    simp [handle_request, respond_for_path, hshape, hne, hnul]

/-- Witness for C3: `GET /a%00` is answered 400 with an empty trace. -/
theorem nul_rejected_before_filesystem_witness :
    handle_request fsFile baseB ⟨Method.get, ['/', 'a', '%', '0', '0']⟩ =
      (emptyResp 400, []) :=
  nul_rejected_before_filesystem fsFile baseB Method.get
    ['/', 'a', '%', '0', '0'] ['a', '%', '0', '0'] (Or.inl rfl)
    (by decide) (by decide) (by decide) (by decide)

/-- C1: for a GET or HEAD request that passes the shape and NUL checks, the
candidate (base directory joined with the decoded relative path) is
canonicalized; if canonicalization fails the response is 404 with no headers
and no body, and if it succeeds but the result does not have the base
directory as a component-wise prefix the response is 403 with no headers and
no body.  In both cases the trace holds only the canonicalization: no file
is ever stat'd or opened, so no file content is returned, whether the escape
came from a symlink or from `..` segments (both are resolved inside the
abstract `canonicalize`). -/
theorem sandbox_canonicalize_gate (fs : FS) (base_dir : RPath) (m : Method)
    (url : List Char) (rel dec : List Char) (cand : RPath)
    (hm : m = Method.get ∨ m = Method.head)
    (hshape : ¬ (stripQuery url = ['/'] ∨ (stripQuery url).getLast? = some '/'))
    (hrel : rel = (stripQuery url).dropWhile (fun c => c == '/'))
    (hne : rel ≠ [])
    (hdec : dec = decode_path rel)
    (hnul : nulChar ∉ dec)
    (hcand : cand = pathJoin base_dir dec) :
    (fs.canonicalize cand = none →
      handle_request fs base_dir ⟨m, url⟩ = (emptyResp 404, [FsOp.canonQ cand])) ∧
    (∀ p, fs.canonicalize cand = some p → List.isPrefixOf base_dir p = false →
      handle_request fs base_dir ⟨m, url⟩ = (emptyResp 403, [FsOp.canonQ cand])) := by
  subst hrel hdec hcand
  constructor
  · intro hcan
    rcases hm with hm | hm <;> subst hm <;>
      simp [handle_request, respond_for_path, hshape, hne, hnul, hcan]
  · intro p hcan hpre
    rcases hm with hm | hm <;> subst hm <;>
      simp [handle_request, respond_for_path, hshape, hne, hnul, hcan, hpre]

/-- Witness for C1: over a filesystem where canonicalization fails,
`GET /f` under base `/b` is 404; over one where `/b/f` resolves (through a
symlink) to `/e`, outside the base, it is 403 — in both cases with empty
body and a trace holding only the canonicalization. -/
theorem sandbox_canonicalize_gate_witness :
    (handle_request fsMissing baseB ⟨Method.get, ['/', 'f']⟩ =
      (emptyResp 404, [FsOp.canonQ (pathJoin baseB ['f'])])) ∧
    (handle_request fsEscape baseB ⟨Method.get, ['/', 'f']⟩ =
      (emptyResp 403, [FsOp.canonQ (pathJoin baseB ['f'])])) :=
  ⟨(sandbox_canonicalize_gate fsMissing baseB Method.get ['/', 'f'] ['f'] ['f']
      (pathJoin baseB ['f']) (Or.inl rfl) (by decide) (by decide) (by decide)
      (by decide) (by decide) rfl).1 rfl,
   (sandbox_canonicalize_gate fsEscape baseB Method.get ['/', 'f'] ['f'] ['f']
      (pathJoin baseB ['f']) (Or.inl rfl) (by decide) (by decide) (by decide)
      (by decide) (by decide) rfl).2 outsideE rfl (by decide)⟩

/-- C2: directory access is never allowed.  Part one: a GET or HEAD request
whose query-stripped raw path is `/`, ends with `/`, or is empty after
stripping leading slashes is answered 403 with no headers and no body and an
empty filesystem trace (rejected before any filesystem access).  Part two: a
request that reaches a canonicalized resolved path lying under the base
directory but naming a directory is also answered 403 with no headers and no
body, the trace showing only the canonicalization and the directory stat. -/
theorem directory_access_never_allowed (fs : FS) (base_dir : RPath) :
    (∀ (m : Method) (url : List Char), (m = Method.get ∨ m = Method.head) →
      (stripQuery url = ['/'] ∨ (stripQuery url).getLast? = some '/' ∨
        (stripQuery url).dropWhile (fun c => c == '/') = []) →
      handle_request fs base_dir ⟨m, url⟩ = (emptyResp 403, [])) ∧
    (∀ (m : Method) (url : List Char) (rel dec : List Char) (cand p : RPath),
      (m = Method.get ∨ m = Method.head) →
      ¬ (stripQuery url = ['/'] ∨ (stripQuery url).getLast? = some '/') →
      rel = (stripQuery url).dropWhile (fun c => c == '/') →
      rel ≠ [] →
      dec = decode_path rel →
      nulChar ∉ dec →
      cand = pathJoin base_dir dec →
      fs.canonicalize cand = some p →
      List.isPrefixOf base_dir p = true →
      fs.isDir p = true →
      handle_request fs base_dir ⟨m, url⟩ =
        (emptyResp 403, [FsOp.canonQ cand, FsOp.isDirQ p])) := by
  constructor
  · intro m url hm hshape
    by_cases hc : stripQuery url = ['/'] ∨ (stripQuery url).getLast? = some '/'
    · rcases hm with hm | hm <;> subst hm <;>
        simp [handle_request, respond_for_path, hc]
    · have hempty : (stripQuery url).dropWhile (fun c => c == '/') = [] := by
        rcases hshape with h | h | h
        · exact absurd (Or.inl h) hc
        · exact absurd (Or.inr h) hc
        · exact h
      rcases hm with hm | hm <;> subst hm <;>
        simp [handle_request, respond_for_path, hc, hempty]
  · intro m url rel dec cand p hm hshape hrel hne hdec hnul hcand hcan hpre hdir
    subst hrel hdec hcand
    rcases hm with hm | hm <;> subst hm <;>
      simp [handle_request, respond_for_path, hshape, hne, hnul, hcan, hpre, hdir]

/-- Witness for C2: `GET /sub/` is 403 with an empty trace, and a `GET /d`
that resolves to an existing directory under the base is 403 with only
canonicalization and the directory stat in the trace. -/
theorem directory_access_never_allowed_witness :
    (handle_request fsDirectory baseB ⟨Method.get, ['/', 's', 'u', 'b', '/']⟩ =
      (emptyResp 403, [])) ∧
    (handle_request fsDirectory baseB ⟨Method.get, ['/', 'd']⟩ =
      (emptyResp 403, [FsOp.canonQ (pathJoin baseB ['d']), FsOp.isDirQ fileF])) :=
  ⟨(directory_access_never_allowed fsDirectory baseB).1 Method.get
      ['/', 's', 'u', 'b', '/'] (Or.inl rfl) (by decide),
   (directory_access_never_allowed fsDirectory baseB).2 Method.get ['/', 'd']
      ['d'] ['d'] (pathJoin baseB ['d']) fileF (Or.inl rfl) (by decide) (by decide)
      (by decide) (by decide) (by decide) rfl rfl (by decide) rfl⟩

/-- C4: a HEAD request that reaches a verified resolved path reads the
file's size via metadata only — the trace shows canonicalization, the
directory stat and the metadata read, and never an open.  If metadata cannot
be obtained the response is 404 with no headers and no body; otherwise it is
200 with empty body, a `Content-Disposition` attachment header whose
filename is the resolved path's final component (never the client-supplied
string), and a `Content-Length` equal to the file's byte size. -/
theorem head_served_from_metadata_only (fs : FS) (base_dir : RPath)
    (url : List Char) (rel dec : List Char) (cand p : RPath)
    (nameBytes : List Nat) (nameStr : String)
    (hshape : ¬ (stripQuery url = ['/'] ∨ (stripQuery url).getLast? = some '/'))
    (hrel : rel = (stripQuery url).dropWhile (fun c => c == '/'))
    (hne : rel ≠ [])
    (hdec : dec = decode_path rel)
    (hnul : nulChar ∉ dec)
    (hcand : cand = pathJoin base_dir dec)
    (hcan : fs.canonicalize cand = some p)
    (hpre : List.isPrefixOf base_dir p = true)
    (hdir : fs.isDir p = false)
    (hname : fileName p = some nameBytes)
    (hstr : osToStr nameBytes = some nameStr) :
    (fs.metadata p = none →
      handle_request fs base_dir ⟨Method.head, url⟩ =
        (emptyResp 404, [FsOp.canonQ cand, FsOp.isDirQ p, FsOp.metadataQ p])) ∧
    (∀ n, fs.metadata p = some n →
      handle_request fs base_dir ⟨Method.head, url⟩ =
        (⟨200, [("Content-Disposition", "attachment; filename=\"" ++ nameStr ++ "\""),
                ("Content-Length", toString n)], []⟩,
         [FsOp.canonQ cand, FsOp.isDirQ p, FsOp.metadataQ p])) := by
  subst hrel hdec hcand
  constructor
  · intro hmeta
    simp [handle_request, respond_for_path, hshape, hne, hnul, hcan, hpre, hdir, hmeta]
  · intro n hmeta
    simp [handle_request, respond_for_path, hshape, hne, hnul, hcan, hpre, hdir,
      hmeta, dispositionFor, fileNameOr, hname, hstr]

/-- Witness for C4: `HEAD /f` where `/f` resolves to the 3-byte file `/b/f`
is 200 with empty body, filename `f` and `Content-Length: 3`; over a
filesystem where metadata fails, it is 404 — in both cases the trace has no
open. -/
theorem head_served_from_metadata_only_witness :
    (handle_request fsFile baseB ⟨Method.head, ['/', 'f']⟩ =
      (⟨200, [("Content-Disposition", "attachment; filename=\"" ++ "f" ++ "\""),
              ("Content-Length", toString 3)], []⟩,
       [FsOp.canonQ (pathJoin baseB ['f']), FsOp.isDirQ fileF, FsOp.metadataQ fileF])) ∧
    (handle_request fsNoMeta baseB ⟨Method.head, ['/', 'f']⟩ =
      (emptyResp 404,
       [FsOp.canonQ (pathJoin baseB ['f']), FsOp.isDirQ fileF, FsOp.metadataQ fileF])) :=
  ⟨(head_served_from_metadata_only fsFile baseB ['/', 'f'] ['f'] ['f']
      (pathJoin baseB ['f']) fileF [102] "f" (by decide) (by decide) (by decide)
      (by decide) (by decide) rfl rfl (by decide) (by decide) (by decide)
      (by decide)).2 3 rfl,
   (head_served_from_metadata_only fsNoMeta baseB ['/', 'f'] ['f'] ['f']
      (pathJoin baseB ['f']) fileF [102] "f" (by decide) (by decide) (by decide)
      (by decide) (by decide) rfl rfl (by decide) (by decide) (by decide)
      (by decide)).1 rfl⟩

/-- C5: for an existing regular file under the base directory (metadata and
open both succeed, and the metadata size is the length of the contents —
what "existing file" means on a real filesystem), HEAD and GET on the same
URL return the same status and the same `Content-Disposition` header, and
HEAD's `Content-Length` is the decimal byte length of the body GET
returns. -/
theorem head_get_agree_on_existing_file (fs : FS) (base_dir : RPath)
    (url : List Char) (rel dec : List Char) (cand p : RPath) (n : Nat)
    (contents : List Nat)
    (hshape : ¬ (stripQuery url = ['/'] ∨ (stripQuery url).getLast? = some '/'))
    (hrel : rel = (stripQuery url).dropWhile (fun c => c == '/'))
    (hne : rel ≠ [])
    (hdec : dec = decode_path rel)
    (hnul : nulChar ∉ dec)
    (hcand : cand = pathJoin base_dir dec)
    (hcan : fs.canonicalize cand = some p)
    (hpre : List.isPrefixOf base_dir p = true)
    (hdir : fs.isDir p = false)
    (hmeta : fs.metadata p = some n)
    (hopen : fs.openFile p = some contents)
    (hsize : n = contents.length) :
    ((handle_request fs base_dir ⟨Method.head, url⟩).1.status =
      (handle_request fs base_dir ⟨Method.get, url⟩).1.status) ∧
    (getHeader (handle_request fs base_dir ⟨Method.head, url⟩).1 "Content-Disposition" =
      getHeader (handle_request fs base_dir ⟨Method.get, url⟩).1 "Content-Disposition") ∧
    (getHeader (handle_request fs base_dir ⟨Method.head, url⟩).1 "Content-Length" =
      some (toString (handle_request fs base_dir ⟨Method.get, url⟩).1.body.length)) := by
  subst hrel hdec hcand hsize
  simp [handle_request, respond_for_path, hshape, hne, hnul, hcan, hpre, hdir,
    hmeta, hopen, getHeader]

/-- Witness for C5: HEAD and GET for `/f` over the 3-byte file `/b/f`. -/
theorem head_get_agree_on_existing_file_witness :
    ((handle_request fsFile baseB ⟨Method.head, ['/', 'f']⟩).1.status =
      (handle_request fsFile baseB ⟨Method.get, ['/', 'f']⟩).1.status) ∧
    (getHeader (handle_request fsFile baseB ⟨Method.head, ['/', 'f']⟩).1
        "Content-Disposition" =
      getHeader (handle_request fsFile baseB ⟨Method.get, ['/', 'f']⟩).1
        "Content-Disposition") ∧
    (getHeader (handle_request fsFile baseB ⟨Method.head, ['/', 'f']⟩).1
        "Content-Length" =
      some (toString (handle_request fsFile baseB ⟨Method.get, ['/', 'f']⟩).1.body.length)) :=
  head_get_agree_on_existing_file fsFile baseB ['/', 'f'] ['f'] ['f']
    (pathJoin baseB ['f']) fileF 3 [10, 20, 30] (by decide) (by decide) (by decide)
    (by decide) (by decide) rfl rfl (by decide) (by decide) rfl rfl (by decide)

/-- C9: when the verified resolved path's final component is absent or not
valid UTF-8 (so `file_name().and_then(to_str)` yields nothing), the
`Content-Disposition` filename falls back to the literal `download`, for
both HEAD and GET success responses. -/
theorem filename_falls_back_to_download (fs : FS) (base_dir : RPath)
    (url : List Char) (rel dec : List Char) (cand p : RPath) (n : Nat)
    (contents : List Nat)
    (hshape : ¬ (stripQuery url = ['/'] ∨ (stripQuery url).getLast? = some '/'))
    (hrel : rel = (stripQuery url).dropWhile (fun c => c == '/'))
    (hne : rel ≠ [])
    (hdec : dec = decode_path rel)
    (hnul : nulChar ∉ dec)
    (hcand : cand = pathJoin base_dir dec)
    (hcan : fs.canonicalize cand = some p)
    (hpre : List.isPrefixOf base_dir p = true)
    (hdir : fs.isDir p = false)
    (hbad : (fileName p).bind osToStr = none)
    (hmeta : fs.metadata p = some n)
    (hopen : fs.openFile p = some contents) :
    (getHeader (handle_request fs base_dir ⟨Method.head, url⟩).1 "Content-Disposition" =
      some "attachment; filename=\"download\"") ∧
    (getHeader (handle_request fs base_dir ⟨Method.get, url⟩).1 "Content-Disposition" =
      some "attachment; filename=\"download\"") := by
  subst hrel hdec hcand
  constructor <;>
    simp [handle_request, respond_for_path, hshape, hne, hnul, hcan, hpre, hdir,
      hmeta, hopen, getHeader, dispositionFor, fileNameOr, hbad]

/-- Witness for C9: HEAD and GET for `/x` resolving to `/b/<0xFF>`, whose
final component is not valid UTF-8, carry `filename="download"`. -/
theorem filename_falls_back_to_download_witness :
    (getHeader (handle_request fsBadName baseB ⟨Method.head, ['/', 'x']⟩).1
        "Content-Disposition" = some "attachment; filename=\"download\"") ∧
    (getHeader (handle_request fsBadName baseB ⟨Method.get, ['/', 'x']⟩).1
        "Content-Disposition" = some "attachment; filename=\"download\"") :=
  filename_falls_back_to_download fsBadName baseB ['/', 'x'] ['x'] ['x']
    (pathJoin baseB ['x']) badNameP 2 [5, 6] (by decide) (by decide) (by decide)
    (by decide) (by decide) rfl rfl (by decide) (by decide) (by decide) rfl rfl

/-- Helper: when collecting decoded pieces fails, some piece was an
ill-formed subpart. -/
theorem collectPieces_eq_none {l : List (Option Char)}
    (h : collectPieces l = none) : none ∈ l := by
  induction l with
  | nil => simp [collectPieces] at h
  | cons a t ih =>
    cases a with
    | none => exact List.mem_cons_self _ _
    | some c =>
      simp only [collectPieces, Option.map_eq_none'] at h
      exact List.mem_cons_of_mem _ (ih h)

/-- C7: the path decoder returns any input containing no `%` unchanged, and
it never rejects: on every byte sequence on which strict UTF-8 decoding
fails (as it can after decoding an invalid percent sequence), the lossy
decode used by `decode_path` still produces a string, substituting the
Unicode replacement character U+FFFD for the ill-formed bytes. -/
theorem decoder_identity_and_lossy :
    (∀ s : List Char, '%' ∉ s → decode_path s = s) ∧
    (∀ bs : List Nat, utf8DecodeStrict bs = none →
      replacementChar ∈ utf8Lossy bs) := by
  constructor
  · intro s hs
    simp [decode_path, hs]
  · intro bs hbs
    have hmem : none ∈ utf8Pieces bs := collectPieces_eq_none hbs
    have : (none : Option Char).getD replacementChar ∈ utf8Lossy bs :=
      List.mem_map_of_mem (fun o => o.getD replacementChar) hmem
    simpa using this

/-- Witness for C7: `abc` is returned unchanged, and the byte `0xFF` (the
decoding of `%FF`), on which strict UTF-8 decoding fails, is lossily decoded
to the replacement character. -/
theorem decoder_identity_and_lossy_witness :
    decode_path ['a', 'b', 'c'] = ['a', 'b', 'c'] ∧
    replacementChar ∈ utf8Lossy [255] :=
  ⟨decoder_identity_and_lossy.1 ['a', 'b', 'c'] (by decide),
   decoder_identity_and_lossy.2 [255] (by decide)⟩

/-- C8: the startup guard, evaluated once on the canonicalized base
directory before serving begins.  A directory is dangerous exactly when it
has no parent (the filesystem root) or equals the home directory resolved
from `HOME` with `USERPROFILE` as fallback; without `--force` a dangerous
directory makes the process warn, naming that directory, and exit with the
non-zero code 1 instead of serving; with `--force` it always serves, and a
non-dangerous directory is always served. -/
theorem danger_zone_guard_at_startup (force : Bool) (env : Env) (base_dir : RPath) :
    (is_dangerous_dir env base_dir = true ↔
      (pathParent base_dir = none ∨ home_dir env = some base_dir)) ∧
    (∀ h, env.home = some h → home_dir env = some h) ∧
    (env.home = none → home_dir env = env.userprofile) ∧
    (force = false → is_dangerous_dir env base_dir = true →
      startupGuard force env base_dir = Startup.refuse base_dir 1) ∧
    (force = true → startupGuard force env base_dir = Startup.serve) ∧
    (is_dangerous_dir env base_dir = false →
      startupGuard force env base_dir = Startup.serve) := by
  refine ⟨?_, ?_, ?_, ?_, ?_, ?_⟩
  · constructor
    · intro hd
      by_cases hp : pathParent base_dir = none
      · exact Or.inl hp
      · rcases hh : home_dir env with _ | home
        · simp [is_dangerous_dir, hp, hh] at hd
        · by_cases he : base_dir = home
          · exact Or.inr (by rw [he])
          · simp [is_dangerous_dir, hp, hh, he] at hd
    · intro hd
      rcases hd with hp | hh
      · simp [is_dangerous_dir, hp]
      · by_cases hp : pathParent base_dir = none
        · simp [is_dangerous_dir, hp]
        · simp [is_dangerous_dir, hp, hh]
  · intro h hh
    simp [home_dir, hh]
  · intro hh
    rcases hu : env.userprofile with _ | u <;> simp [home_dir, hh, hu]
  · intro hf hd
    simp [startupGuard, hf, hd]
  · intro hf
    simp [startupGuard, hf]
  · intro hd
    simp [startupGuard, hd]

/-- Witness for C8: with `HOME=/h` and base directory `/h`, the guard
without `--force` refuses with exit code 1 naming `/h`; with `--force` it
serves; and a base `/b` that is neither the root nor the home is served. -/
theorem danger_zone_guard_at_startup_witness :
    (startupGuard false ⟨some [PComp.root, PComp.comp [104]], none⟩
        [PComp.root, PComp.comp [104]] =
      Startup.refuse [PComp.root, PComp.comp [104]] 1) ∧
    (startupGuard true ⟨some [PComp.root, PComp.comp [104]], none⟩
        [PComp.root, PComp.comp [104]] = Startup.serve) ∧
    (startupGuard false ⟨some [PComp.root, PComp.comp [104]], none⟩ baseB =
      Startup.serve) :=
  ⟨(danger_zone_guard_at_startup false ⟨some [PComp.root, PComp.comp [104]], none⟩
      [PComp.root, PComp.comp [104]]).2.2.2.1 rfl (by decide),
   (danger_zone_guard_at_startup true ⟨some [PComp.root, PComp.comp [104]], none⟩
      [PComp.root, PComp.comp [104]]).2.2.2.2.1 rfl,
   (danger_zone_guard_at_startup false ⟨some [PComp.root, PComp.comp [104]], none⟩
      baseB).2.2.2.2.2 (by decide)⟩

end Nsv
